import Mathlib

/-!
Verification of the BCI-engine SSVEP display core.

The definitions below are a shallow embedding of the Python sources:
  - src/python/word_engine/engine.py (class SSVEPWordBag)
  - src/python/display_engine/util/screen_painter.py
    (class SSVEPLayout, the trial handler and the render loop inside
    SSVEPScreenPainter.main_loop).

Python floats are modelled with rational numbers, the truncating int()
conversion with pyTrunc, and fallible Python operations (IndexError,
TypeError, ZeroDivisionError) with Option / Except values.  Randomness
(random.shuffle, random.choice) is modelled by passing the shuffled list
and the index drawn by the random source as explicit arguments.
-/

/-- Truncation toward zero, the behaviour of the Python built-in int()
on a (here: rational) number. -/
def pyTrunc (q : ℚ) : ℤ := if 0 ≤ q then ⌊q⌋ else ⌈q⌉

/-- The five values of the SSVEPInputStage enum in screen_painter.py. -/
inductive SSVEPInputStage where
  | awaitInputWithCue
  | awaitInputWithoutCue
  | awaitEnter
  | awaitApp
  | default
deriving DecidableEq, Fintype, Repr

/-- Errors of the embedded Python fragments. -/
inductive PyError where
  | typeError
  | indexError
deriving DecidableEq, Repr

/-- The mutable state of SSVEPWordBag (word_engine/engine.py): the pending
cue characters, the confirmed prompt buffer and the filler-character pool. -/
structure SSVEPWordBag where
  cue_sequence : List String
  prompt_buffer : List String
  other_chars : List String
deriving DecidableEq, Repr

/-- SSVEPWordBag.consume (engine.py lines 231-249): pop and return the
front of cue_sequence exactly when it is non-empty and equals the input;
otherwise return None and leave the bag untouched.  The returned pair is
(result, updated bag). -/
def consume (wb : SSVEPWordBag) (inp : String) : Option String × SSVEPWordBag :=
  match wb.cue_sequence with
  | [] => (none, wb)
  | c :: rest =>
    if inp = c then (some c, { wb with cue_sequence := rest }) else (none, wb)

/-- Python list assignment sequence.setElem : sequence\x5bk\x5d = v raises
IndexError when k is out of range (keys here are natural numbers). -/
def pySet (l : List String) (k : ℕ) (v : String) : Option (List String) :=
  if k < l.length then some (l.set k v) else none

/-- Apply the fixed-position overwrites in order (the for-loop over
fixed_positions.items() in SSVEPWordBag.mk_layout). -/
def pySetAll (l : List String) (kvs : List (ℕ × String)) : Option (List String) :=
  kvs.foldl (fun acc kv => acc.bind (fun l2 => pySet l2 kv.1 kv.2)) (some l)

/-- SSVEPWordBag.mk_layout (engine.py lines 194-229).  `shuffled` is the
other_chars pool after random.shuffle; `pick` drives random.choice (the
chosen element is indices\x5bpick % indices.length\x5d, so every element of
indices is reachable).  Note the source computes the candidate cue indices
from range(self.num_patches) - the instance attribute, passed here as
self_num_patches - and not from the num_patches argument. -/
def mk_layout (shuffled : List String) (self_num_patches : ℕ) (cue_sequence : List String)
    (num_patches : ℕ) (fixed_positions : List (ℕ × String)) (pick : ℕ) :
    Option (List String × ℤ) :=
  match pySetAll (shuffled.take num_patches) fixed_positions with
  | none => none
  | some seq1 =>
    match cue_sequence with
    | [] => some (seq1, -1)
    | cue0 :: _ =>
      let indices := (List.range self_num_patches).filter
        (fun e => ! fixed_positions.any (fun kv => kv.1 == e))
      if indices.length = 0 then none
      else
        let cue_index := indices.getD (pick % indices.length) 0
        match pySet seq1 cue_index cue0 with
        | none => none
        | some seq2 => some (seq2, (cue_index : ℤ))

/-- The stage-recompute step of _on_trial_stops (screen_painter.py lines
365-420), as a function of (cueSequence empty?, promptBuffer empty?,
previous stage).  The final else branch (logger.error, line 420) is
modelled as none. -/
def determineStage (cueEmpty promptEmpty : Bool) (prev : SSVEPInputStage) :
    Option SSVEPInputStage :=
  if prev = SSVEPInputStage.awaitEnter then some SSVEPInputStage.awaitApp
  else if prev = SSVEPInputStage.awaitApp then some SSVEPInputStage.awaitApp
  else if cueEmpty && !promptEmpty then some SSVEPInputStage.awaitEnter
  else if cueEmpty && promptEmpty then some SSVEPInputStage.awaitInputWithoutCue
  else if !cueEmpty then some SSVEPInputStage.awaitInputWithCue
  else none

/-- Modelled from the spec's transition table (spec sections 4.3 and 8),
for comparison with determineStage: awaitEnter maps to awaitApp, awaitApp
passes through, otherwise the (cueSequence empty?, promptBuffer empty?)
pair decides. -/
def stageTableSpec (cueEmpty promptEmpty : Bool) (prev : SSVEPInputStage) :
    SSVEPInputStage :=
  match prev with
  | SSVEPInputStage.awaitEnter => SSVEPInputStage.awaitApp
  | SSVEPInputStage.awaitApp => SSVEPInputStage.awaitApp
  | _ =>
    if cueEmpty then
      if promptEmpty then SSVEPInputStage.awaitInputWithoutCue
      else SSVEPInputStage.awaitEnter
    else SSVEPInputStage.awaitInputWithCue

/-- Python list read l\x5bi\x5d with an integer index: negative indices wrap
once from the end, anything else out of range raises IndexError. -/
def pyGetI (l : List String) (i : ℤ) : Option String :=
  if 0 ≤ i then l.get? i.toNat
  else if 0 ≤ (l.length : ℤ) + i then l.get? ((l.length : ℤ) + i).toNat
  else none

/-- The awaitApp operations block of _on_trial_stops (screen_painter.py
lines 451-466): read char_sequence\x5bcue_index\x5d as the target title, join
and clear the prompt buffer, then hand (content, title) to the dispatch
collaborator.  cue_index = None (Python) makes the subscript raise
TypeError before anything is flushed or sent; an out-of-range index
raises IndexError.  A successful step returns
(target title, joined content, cleared prompt buffer). -/
def awaitAppOperations (char_sequence : List String) (cue_index : Option ℤ)
    (prompt_buffer : List String) : Except PyError (String × String × List String) :=
  match cue_index with
  | none => Except.error PyError.typeError
  | some i =>
    match pyGetI char_sequence i with
    | none => Except.error PyError.indexError
    | some app_title => Except.ok (app_title, String.join prompt_buffer, ([] : List String))

/-- One patch of the stimulus layout (the dict built in
SSVEPLayout.get_layout, lines 133-144). -/
structure SPatch where
  patch_id : ℕ
  size : ℤ
  x : ℤ
  y : ℤ
  char : String
deriving DecidableEq, Repr

/-- d = int(ws\x5b1\x5d - ws\x5b0\x5d) in get_layout: the truncated bin width
(e - w) / columns of the linspace grid. -/
def binWidth (w e : ℚ) (columns : ℤ) : ℤ := pyTrunc ((e - w) / (columns : ℚ))

/-- size = int((ws\x5b1\x5d - ws\x5b0\x5d) * (1 - paddingRatio)) in get_layout. -/
def patchSize (w e : ℚ) (columns : ℤ) (paddingRatio : ℚ) : ℤ :=
  pyTrunc ((e - w) / (columns : ℚ) * (1 - paddingRatio))

/-- rows = int((s - n) / d) in get_layout. -/
def rowCount (w n e s : ℚ) (columns : ℤ) : ℤ :=
  pyTrunc ((s - n) / ((binWidth w e columns : ℤ) : ℚ))

/-- One entry of the layout comprehension: patch_id enumerates
itertools.product(range(rows), range(columns)) row-major, so the row is
pid / columns and the column pid % columns. -/
def mkPatch (w n : ℚ) (d sz : ℤ) (cols : ℕ) (cs : List String) (pid : ℕ) : SPatch :=
  { patch_id := pid
    size := sz
    x := pyTrunc (w + (d : ℚ) * ((pid % cols : ℕ) : ℚ) + ((d : ℚ) - (sz : ℚ)) / 2)
    y := pyTrunc (n + (d : ℚ) * ((pid / cols : ℕ) : ℚ) + ((d : ℚ) - (sz : ℚ)) / 2)
    char := cs.getD (pid % cs.length) "" }

/-- SSVEPLayout.get_layout (screen_painter.py lines 104-147).  The guards
model the failure modes of the source: with columns below 2 the sliced
linspace has fewer than two breaks and ws\x5b1\x5d raises IndexError (a
negative count raises ValueError in linspace itself); a zero truncated
bin width makes rows = int((s-n)/d) raise ZeroDivisionError; an empty
char_sequence makes patch_id % len(char_sequence) raise
ZeroDivisionError as soon as one patch exists. -/
def get_layout (w n e s : ℚ) (columns : ℤ) (paddingRatio : ℚ) (cs : List String) :
    Option (List SPatch) :=
  if columns < 2 then none
  else if binWidth w e columns = 0 then none
  else if (rowCount w n e s columns).toNat * columns.toNat ≠ 0 ∧ cs.length = 0 then none
  else some ((List.range ((rowCount w n e s columns).toNat * columns.toNat)).map
    (mkPatch w n (binWidth w e columns) (patchSize w e columns paddingRatio)
      columns.toNat cs))

/-- The trial-boundary update in SSVEPScreenPainter.main_loop (lines
490-492): when the elapsed time passes the boundary, the boundary steps
forward by the trial length. -/
def boundaryStep (passed nextBoundary stepLen : ℚ) : ℚ :=
  if nextBoundary < passed then nextBoundary + stepLen else nextBoundary

/-- tr = (change_char_next_passed - passed) / change_char_step computed
each tick after the boundary check (main_loop line 501). -/
def trialRatioAfter (passed nextBoundary stepLen : ℚ) : ℚ :=
  (boundaryStep passed nextBoundary stepLen - passed) / stepLen

/-! Helper lemmas about pyTrunc. -/

lemma pyTrunc_eq_floor (q : ℚ) (h : 0 ≤ q) : pyTrunc q = ⌊q⌋ := by
  unfold pyTrunc
  exact if_pos h

lemma pyTrunc_eq_ceil (q : ℚ) (h : ¬ 0 ≤ q) : pyTrunc q = ⌈q⌉ := by
  unfold pyTrunc
  exact if_neg h

lemma floor_le_pyTrunc (q : ℚ) : ⌊q⌋ ≤ pyTrunc q := by
  unfold pyTrunc
  split
  · exact le_refl _
  · exact Int.floor_le_ceil q

lemma pyTrunc_cast_lt_add_one (q : ℚ) : ((pyTrunc q : ℤ) : ℚ) < q + 1 := by
  unfold pyTrunc
  split
  · exact lt_of_le_of_lt (Int.floor_le q) (by linarith)
  · exact Int.ceil_lt_add_one q

lemma pyTrunc_mono_nonneg (a b : ℚ) (ha : 0 ≤ a) (hab : a ≤ b) :
    pyTrunc a ≤ pyTrunc b := by
  rw [pyTrunc_eq_floor a ha, pyTrunc_eq_floor b (le_trans ha hab)]
  exact Int.floor_mono hab

lemma pyTrunc_nonneg (q : ℚ) (h : 0 ≤ q) : 0 ≤ pyTrunc q := by
  rw [pyTrunc_eq_floor q h]
  exact Int.floor_nonneg.mpr h

lemma pyTrunc_cast_le (q : ℚ) (h : 0 ≤ q) : ((pyTrunc q : ℤ) : ℚ) ≤ q := by
  rw [pyTrunc_eq_floor q h]
  exact Int.floor_le q

lemma int_le_pyTrunc_int_add (z : ℤ) (t : ℚ) (h : 0 ≤ t) :
    z ≤ pyTrunc ((z : ℚ) + t) := by
  refine le_trans ?_ (floor_le_pyTrunc _)
  rw [Int.le_floor]
  linarith

/-- Destructure membership in a produced layout: the degenerate guards
did not fire and the patch is a mkPatch of some patch id in range. -/
lemma mem_get_layout (w n e s : ℚ) (columns : ℤ) (pr : ℚ) (cs : List String) (p : SPatch)
    (hp : p ∈ (get_layout w n e s columns pr cs).getD []) :
    ¬ columns < 2 ∧ binWidth w e columns ≠ 0 ∧
      ∃ pid, pid < (rowCount w n e s columns).toNat * columns.toNat ∧
        p = mkPatch w n (binWidth w e columns) (patchSize w e columns pr)
          columns.toNat cs pid := by
  unfold get_layout at hp
  split_ifs at hp with h1 h2 h3
  · simp at hp
  · simp at hp
  · simp at hp
  · refine ⟨h1, h2, ?_⟩
    simp only [Option.getD_some, List.mem_map, List.mem_range] at hp
    obtain ⟨pid, hpid, hEq⟩ := hp
    exact ⟨pid, hpid, hEq.symm⟩

/-- Geometry of a single patch, given the layout-level facts. -/
lemma mkPatch_in_box (wi ni ei si : ℤ) (d sz : ℤ) (cols rowsN : ℕ)
    (cs : List String) (pid : ℕ)
    (hd : 0 < d) (hsz0 : 0 ≤ sz) (hszd : sz ≤ d)
    (hcols : 0 < cols) (hpid : pid < rowsN * cols)
    (hdc : (d : ℚ) * (cols : ℚ) ≤ (ei : ℚ) - (wi : ℚ))
    (hdr : (d : ℚ) * (rowsN : ℚ) ≤ (si : ℚ) - (ni : ℚ)) :
    wi ≤ (mkPatch (wi : ℚ) (ni : ℚ) d sz cols cs pid).x ∧
    ni ≤ (mkPatch (wi : ℚ) (ni : ℚ) d sz cols cs pid).y ∧
    (mkPatch (wi : ℚ) (ni : ℚ) d sz cols cs pid).x + sz ≤ ei ∧
    (mkPatch (wi : ℚ) (ni : ℚ) d sz cols cs pid).y + sz ≤ si := by
  have hdQ : (0 : ℚ) < (d : ℚ) := by exact_mod_cast hd
  have hszQ : (0 : ℚ) ≤ (sz : ℚ) := by exact_mod_cast hsz0
  have hszdQ : (sz : ℚ) ≤ (d : ℚ) := by exact_mod_cast hszd
  have hj : pid % cols < cols := Nat.mod_lt _ hcols
  have hi : pid / cols < rowsN := (Nat.div_lt_iff_lt_mul hcols).mpr hpid
  have hjQ : ((pid % cols : ℕ) : ℚ) + 1 ≤ (cols : ℚ) := by
    exact_mod_cast Nat.succ_le_of_lt hj
  have hiQ : ((pid / cols : ℕ) : ℚ) + 1 ≤ (rowsN : ℚ) := by
    exact_mod_cast Nat.succ_le_of_lt hi
  have hjQ0 : (0 : ℚ) ≤ ((pid % cols : ℕ) : ℚ) := Nat.cast_nonneg _
  have hiQ0 : (0 : ℚ) ≤ ((pid / cols : ℕ) : ℚ) := Nat.cast_nonneg _
  have hx : (mkPatch (wi : ℚ) (ni : ℚ) d sz cols cs pid).x
      = pyTrunc ((wi : ℚ) + (d : ℚ) * ((pid % cols : ℕ) : ℚ) + ((d : ℚ) - (sz : ℚ)) / 2) := rfl
  have hy : (mkPatch (wi : ℚ) (ni : ℚ) d sz cols cs pid).y
      = pyTrunc ((ni : ℚ) + (d : ℚ) * ((pid / cols : ℕ) : ℚ) + ((d : ℚ) - (sz : ℚ)) / 2) := rfl
  have ht0 : 0 ≤ (d : ℚ) * ((pid % cols : ℕ) : ℚ) + ((d : ℚ) - (sz : ℚ)) / 2 := by
    have hm := mul_nonneg hdQ.le hjQ0
    linarith
  have ht0i : 0 ≤ (d : ℚ) * ((pid / cols : ℕ) : ℚ) + ((d : ℚ) - (sz : ℚ)) / 2 := by
    have hm := mul_nonneg hdQ.le hiQ0
    linarith
  have hxlo : wi ≤ (mkPatch (wi : ℚ) (ni : ℚ) d sz cols cs pid).x := by
    rw [hx, show (wi : ℚ) + (d : ℚ) * ((pid % cols : ℕ) : ℚ) + ((d : ℚ) - (sz : ℚ)) / 2
        = (wi : ℚ) + ((d : ℚ) * ((pid % cols : ℕ) : ℚ) + ((d : ℚ) - (sz : ℚ)) / 2) from by ring]
    exact int_le_pyTrunc_int_add wi _ ht0
  have hylo : ni ≤ (mkPatch (wi : ℚ) (ni : ℚ) d sz cols cs pid).y := by
    rw [hy, show (ni : ℚ) + (d : ℚ) * ((pid / cols : ℕ) : ℚ) + ((d : ℚ) - (sz : ℚ)) / 2
        = (ni : ℚ) + ((d : ℚ) * ((pid / cols : ℕ) : ℚ) + ((d : ℚ) - (sz : ℚ)) / 2) from by ring]
    exact int_le_pyTrunc_int_add ni _ ht0i
  have hxhi : (mkPatch (wi : ℚ) (ni : ℚ) d sz cols cs pid).x + sz ≤ ei := by
    have hlt : (((mkPatch (wi : ℚ) (ni : ℚ) d sz cols cs pid).x : ℤ) : ℚ)
        < (wi : ℚ) + (d : ℚ) * ((pid % cols : ℕ) : ℚ) + ((d : ℚ) - (sz : ℚ)) / 2 + 1 := by
      rw [hx]
      exact pyTrunc_cast_lt_add_one _
    have hmul : (d : ℚ) * ((pid % cols : ℕ) : ℚ) ≤ (d : ℚ) * ((cols : ℚ) - 1) :=
      mul_le_mul_of_nonneg_left (by linarith) hdQ.le
    have hring : (d : ℚ) * ((cols : ℚ) - 1) + (d : ℚ) = (d : ℚ) * (cols : ℚ) := by ring
    have hfin : (((mkPatch (wi : ℚ) (ni : ℚ) d sz cols cs pid).x + sz : ℤ) : ℚ)
        < (ei : ℚ) + 1 := by
      push_cast
      linarith
    have hz : (mkPatch (wi : ℚ) (ni : ℚ) d sz cols cs pid).x + sz < ei + 1 := by
      exact_mod_cast hfin
    omega
  have hyhi : (mkPatch (wi : ℚ) (ni : ℚ) d sz cols cs pid).y + sz ≤ si := by
    have hlt : (((mkPatch (wi : ℚ) (ni : ℚ) d sz cols cs pid).y : ℤ) : ℚ)
        < (ni : ℚ) + (d : ℚ) * ((pid / cols : ℕ) : ℚ) + ((d : ℚ) - (sz : ℚ)) / 2 + 1 := by
      rw [hy]
      exact pyTrunc_cast_lt_add_one _
    have hmul : (d : ℚ) * ((pid / cols : ℕ) : ℚ) ≤ (d : ℚ) * ((rowsN : ℚ) - 1) :=
      mul_le_mul_of_nonneg_left (by linarith) hdQ.le
    have hring : (d : ℚ) * ((rowsN : ℚ) - 1) + (d : ℚ) = (d : ℚ) * (rowsN : ℚ) := by ring
    have hfin : (((mkPatch (wi : ℚ) (ni : ℚ) d sz cols cs pid).y + sz : ℤ) : ℚ)
        < (si : ℚ) + 1 := by
      push_cast
      linarith
    have hz : (mkPatch (wi : ℚ) (ni : ℚ) d sz cols cs pid).y + sz < si + 1 := by
      exact_mod_cast hfin
    omega
  exact ⟨hxlo, hylo, hxhi, hyhi⟩

/-! Claim theorems. -/

/-- Claim C1 (counterexample): in the awaitApp operations block with
cue_index = None, the handler does not proceed without error: the
subscript char_sequence\x5bNone\x5d raises TypeError at a concrete input,
contradicting the claim that the stage stalls harmlessly with no error. -/
theorem C1_claim_counterexample :
    awaitAppOperations ["a", "b"] none ["x"] = Except.error PyError.typeError := rfl

/-- Claim C1 (amended): whenever the stage is awaitApp and cue_index is
None, the operations block raises TypeError at the target lookup, for
every char_sequence and prompt buffer; in particular it never reaches
the dispatch collaborator (no Except.ok value), so nothing - and in
particular no empty target identifier - is handed to the keystroke
dispatch, and the prompt buffer is not flushed. -/
theorem C1_awaitApp_none_raises (cs pb : List String) :
    awaitAppOperations cs none pb = Except.error PyError.typeError := rfl

/-- Claim C2: the stage-recompute step of _on_trial_stops is a pure
function of (cueSequence empty?, promptBuffer empty?, previous stage)
given exactly by the spec table stageTableSpec: awaitEnter maps to
awaitApp, awaitApp passes through (the reset to default happens later,
in the dispatch block), otherwise cue empty and prompt non-empty gives
awaitEnter, cue empty and prompt empty gives awaitInputWithoutCue, and
cue non-empty gives awaitInputWithCue.  In particular cueSequence = \x5b\x5d,
promptBuffer = \x5b"A"\x5d, previous stage awaitInputWithoutCue yields
awaitEnter. -/
theorem C2_stage_table :
    (∀ (cueEmpty promptEmpty : Bool) (prev : SSVEPInputStage),
      determineStage cueEmpty promptEmpty prev
        = some (stageTableSpec cueEmpty promptEmpty prev)) ∧
    determineStage true false SSVEPInputStage.awaitInputWithoutCue
      = some SSVEPInputStage.awaitEnter := by
  constructor
  · decide
  · rfl

/-- Claim C3 (code bug): mk_layout draws the cue index from
range(self.num_patches) - the instance attribute, which stays 12 -
instead of the requested num_patches argument.  At the concrete failing
input num_patches = 6, fixed_positions empty, self.num_patches = 12,
non-empty cue_sequence, with random.choice drawing the candidate 11,
the assignment sequence\x5b11\x5d on the 6-element sequence raises IndexError
(modelled as none), instead of placing the cue at a uniformly random
index of \x5b0, 6). -/
theorem C3_cue_index_out_of_range :
    mk_layout ["a", "b", "c", "d", "e", "f", "g", "h", "i", "j"] 12 ["X"] 6 [] 11
      = none := rfl

/-- Claim C4: consume pops and returns the front of cue_sequence exactly
when the queue is non-empty and its front equals the candidate; in every
other case (empty queue or mismatch) it returns none and leaves the
whole bag - cue_sequence, prompt_buffer and other_chars - unchanged.
Successful calls remove exactly the front element, so repeated successes
drain the queue front-to-back. -/
theorem C4_consume_spec :
    (∀ (wb : SSVEPWordBag) (inp : String), wb.cue_sequence = [] →
      consume wb inp = (none, wb)) ∧
    (∀ (wb : SSVEPWordBag) (c : String) (rest : List String) (inp : String),
      wb.cue_sequence = c :: rest →
        (inp = c → consume wb inp = (some c, { wb with cue_sequence := rest })) ∧
        (inp ≠ c → consume wb inp = (none, wb))) := by
  constructor
  · intro wb inp h
    obtain ⟨cue, pb, oc⟩ := wb
    simp only at h
    subst h
    rfl
  · intro wb c rest inp h
    obtain ⟨cue, pb, oc⟩ := wb
    simp only at h
    subst h
    constructor
    · intro he
      subst he
      simp [consume]
    · intro hne
      simp [consume, hne]

/-- Witness for C4 at concrete bags: an empty queue never advances, a
matching front pops exactly it, a mismatch changes nothing. -/
theorem C4_consume_spec_witness :
    consume ⟨[], ["p"], ["q"]⟩ "a" = (none, ⟨[], ["p"], ["q"]⟩) ∧
    consume ⟨["X", "Y"], [], []⟩ "X" = (some "X", ⟨["Y"], [], []⟩) ∧
    consume ⟨["X", "Y"], [], []⟩ "Z" = (none, ⟨["X", "Y"], [], []⟩) :=
  ⟨C4_consume_spec.1 ⟨[], ["p"], ["q"]⟩ "a" rfl,
   (C4_consume_spec.2 ⟨["X", "Y"], [], []⟩ "X" ["Y"] "X" rfl).1 rfl,
   (C4_consume_spec.2 ⟨["X", "Y"], [], []⟩ "X" ["Y"] "Z" rfl).2 (by decide)⟩

/-- Claim C6 (counterexample): with the degenerate parameter columns = 0
(and e > w), get_layout does not return an empty layout: the sliced
linspace has a single break and ws\x5b1\x5d raises IndexError, modelled as
none, which differs from some \x5b\x5d. -/
theorem C6_claim_counterexample :
    get_layout 0 0 100 100 0 (1/5) ["a"] ≠ some [] := by decide

/-- Claim C6 (amended): degenerate parameters raise instead of returning
an empty layout: columns ≤ 0 always errors (IndexError/ValueError around
the linspace slice), and e = w always errors (the truncated bin width is
0, so rows = int((s-n)/d) raises ZeroDivisionError); an empty layout
does arise for an inverted box whose truncated bin width is negative,
e.g. w = 100, e = 0, columns = 2. -/
theorem C6_degenerate_errors :
    (∀ (w n e s : ℚ) (columns : ℤ) (pr : ℚ) (cs : List String), columns ≤ 0 →
      get_layout w n e s columns pr cs = none) ∧
    (∀ (w n s : ℚ) (columns : ℤ) (pr : ℚ) (cs : List String),
      get_layout w n w s columns pr cs = none) ∧
    get_layout 100 0 0 100 2 0 ["a"] = some [] := by
  refine ⟨?_, ?_, of_decide_eq_true (by with_unfolding_all rfl)⟩
  · intro w n e s columns pr cs hcol
    unfold get_layout
    rw [if_pos (by omega : columns < 2)]
  · intro w n s columns pr cs
    unfold get_layout
    by_cases h2 : columns < 2
    · rw [if_pos h2]
    · rw [if_neg h2]
      have hbw : binWidth w w columns = 0 := by
        unfold binWidth
        rw [sub_self, zero_div]
        decide
      rw [hbw]
      rw [if_pos rfl]

/-- Witness for C6 at a concrete degenerate input: columns = 0 errors. -/
theorem C6_degenerate_errors_witness :
    get_layout 0 0 100 100 0 0 ["a"] = none :=
  C6_degenerate_errors.1 0 0 100 100 0 0 ["a"] (by decide)

/-- Claim C8: within a trial interval the progress ratio computed after
the boundary check decreases strictly as elapsed time increases, is
never negative on a tick at which the boundary has not yet fired
(passed ≤ nextBoundary), equals 1 at the start of the interval and 0 at
its end. -/
theorem C8_trial_ratio (stepLen nextB p1 p2 : ℚ)
    (hs : 0 < stepLen) (h12 : p1 < p2) (h2 : p2 ≤ nextB) :
    trialRatioAfter p2 nextB stepLen < trialRatioAfter p1 nextB stepLen ∧
    0 ≤ trialRatioAfter p2 nextB stepLen ∧
    trialRatioAfter (nextB - stepLen) nextB stepLen = 1 ∧
    trialRatioAfter nextB nextB stepLen = 0 := by
  have h1 : p1 ≤ nextB := le_trans h12.le h2
  have hb2 : boundaryStep p2 nextB stepLen = nextB := if_neg (not_lt.mpr h2)
  have hb1 : boundaryStep p1 nextB stepLen = nextB := if_neg (not_lt.mpr h1)
  have hbe : boundaryStep (nextB - stepLen) nextB stepLen = nextB :=
    if_neg (not_lt.mpr (by linarith))
  have hbn : boundaryStep nextB nextB stepLen = nextB := if_neg (not_lt.mpr le_rfl)
  unfold trialRatioAfter
  rw [hb1, hb2, hbe, hbn]
  refine ⟨?_, ?_, ?_, ?_⟩
  · exact (div_lt_div_iff_of_pos_right hs).mpr (by linarith)
  · exact div_nonneg (by linarith) hs.le
  · rw [sub_sub_cancel]
    exact div_self hs.ne'
  · rw [sub_self, zero_div]

/-- Witness for C8 with the source constants (change_char_step = 4): a
trial from 0 to 4 sampled at 1 and 2 seconds. -/
theorem C8_trial_ratio_witness :
    trialRatioAfter 2 4 4 < trialRatioAfter 1 4 4 ∧
    0 ≤ trialRatioAfter 2 4 4 ∧
    trialRatioAfter (4 - 4) 4 4 = 1 ∧
    trialRatioAfter 4 4 4 = 0 :=
  C8_trial_ratio 4 4 1 2 (by norm_num) (by norm_num) (by norm_num)

/-- Claim C9: for every non-empty char_sequence, each produced patch
carries the character char_sequence\x5bpatch_id % len(char_sequence)\x5d -
characters repeat cyclically in row-major order - and the lookup index
is always in bounds whatever the mismatch between sequence length and
patch count. -/
theorem C9_char_cyclic (w n e s : ℚ) (columns : ℤ) (paddingRatio : ℚ)
    (cs : List String) (hcs : cs ≠ []) :
    ∀ p ∈ (get_layout w n e s columns paddingRatio cs).getD [],
      p.patch_id % cs.length < cs.length ∧
      p.char = cs.getD (p.patch_id % cs.length) "" := by
  intro p hp
  obtain ⟨-, -, pid, hpid, rfl⟩ := mem_get_layout _ _ _ _ _ _ _ _ hp
  have hlen : 0 < cs.length := List.length_pos.mpr hcs
  exact ⟨Nat.mod_lt _ hlen, rfl⟩

/-- Witness for C9: the first patch of a concrete 2x2 layout over the
two-character sequence carries its character 0 mod 2. -/
theorem C9_char_cyclic_witness :
    (⟨0, 50, 0, 0, "a"⟩ : SPatch).patch_id % (["a", "b"]).length < (["a", "b"]).length ∧
    (⟨0, 50, 0, 0, "a"⟩ : SPatch).char
      = (["a", "b"]).getD ((⟨0, 50, 0, 0, "a"⟩ : SPatch).patch_id % (["a", "b"]).length) "" :=
  C9_char_cyclic 0 0 100 100 2 0 ["a", "b"] (by decide) ⟨0, 50, 0, 0, "a"⟩
    (of_decide_eq_true (by with_unfolding_all rfl))

/-- Claim C10: the final error branch of the stage recompute (the
logger.error at line 420, whose message even references the unbound
sys.stage) is unreachable: for every combination of emptiness flags and
previous stage one of the guarding branches assigns a stage. -/
theorem C10_error_branch_unreachable :
    ∀ (cueEmpty promptEmpty : Bool) (prev : SSVEPInputStage),
      (determineStage cueEmpty promptEmpty prev).isSome = true := by decide

/-- Claim C5 (counterexample): with the fractional top bound n = 1/2
(exactly the kind of value header_height = height/6 produces) and
columns = 2, e = 200, s = 200.5, paddingRatio = 0, a produced patch has
y = 0, strictly above the top bound: not every patch lies inside
\x5bw,e\x5d x \x5bn,s\x5d, so the claim fails as stated for a valid box with
columns > 0, e > w, 0 ≤ paddingRatio ≤ 1. -/
theorem C5_claim_counterexample :
    ((get_layout 0 (1/2) 200 (401/2) 2 0 ["a"]).getD []).all
      (fun p => decide ((1 : ℚ)/2 ≤ (p.y : ℚ))) = false := by
  with_unfolding_all rfl

/-- Claim C5 (amended): for whole-number box bounds w, n, e, s with
columns > 0, e > w and 0 ≤ paddingRatio ≤ 1, every produced patch has
size ≤ binWidth and lies fully inside the box: w ≤ x, n ≤ y,
x + size ≤ e and y + size ≤ s. -/
theorem C5_patches_in_box (wi ni ei si columns : ℤ) (paddingRatio : ℚ) (cs : List String)
    (hc : 0 < columns) (hew : wi < ei) (hp0 : 0 ≤ paddingRatio) (hp1 : paddingRatio ≤ 1) :
    ∀ p ∈ (get_layout (wi : ℚ) (ni : ℚ) (ei : ℚ) (si : ℚ) columns paddingRatio cs).getD [],
      p.size ≤ binWidth (wi : ℚ) (ei : ℚ) columns ∧
      wi ≤ p.x ∧ ni ≤ p.y ∧ p.x + p.size ≤ ei ∧ p.y + p.size ≤ si := by
  intro p hp
  obtain ⟨hc2, hd0, pid, hpid, rfl⟩ := mem_get_layout _ _ _ _ _ _ _ _ hp
  have hcQ : (0 : ℚ) < (columns : ℚ) := by exact_mod_cast hc
  have hwei : (wi : ℚ) < (ei : ℚ) := by exact_mod_cast hew
  have hq : (0 : ℚ) < ((ei : ℚ) - (wi : ℚ)) / (columns : ℚ) := div_pos (by linarith) hcQ
  have hd_nonneg : 0 ≤ binWidth (wi : ℚ) (ei : ℚ) columns := by
    unfold binWidth
    exact pyTrunc_nonneg _ hq.le
  have hd_pos : 0 < binWidth (wi : ℚ) (ei : ℚ) columns :=
    lt_of_le_of_ne hd_nonneg (Ne.symm hd0)
  have hdle : ((binWidth (wi : ℚ) (ei : ℚ) columns : ℤ) : ℚ)
      ≤ ((ei : ℚ) - (wi : ℚ)) / (columns : ℚ) := by
    unfold binWidth
    exact pyTrunc_cast_le _ hq.le
  have hdc : ((binWidth (wi : ℚ) (ei : ℚ) columns : ℤ) : ℚ) * (columns : ℚ)
      ≤ (ei : ℚ) - (wi : ℚ) := (le_div_iff₀ hcQ).mp hdle
  have harg : 0 ≤ ((ei : ℚ) - (wi : ℚ)) / (columns : ℚ) * (1 - paddingRatio) :=
    mul_nonneg hq.le (by linarith)
  have hsz_nonneg : 0 ≤ patchSize (wi : ℚ) (ei : ℚ) columns paddingRatio := by
    unfold patchSize
    exact pyTrunc_nonneg _ harg
  have hsz_le : patchSize (wi : ℚ) (ei : ℚ) columns paddingRatio
      ≤ binWidth (wi : ℚ) (ei : ℚ) columns := by
    unfold patchSize binWidth
    apply pyTrunc_mono_nonneg _ _ harg
    have h1le : ((ei : ℚ) - (wi : ℚ)) / (columns : ℚ) * (1 - paddingRatio)
        ≤ ((ei : ℚ) - (wi : ℚ)) / (columns : ℚ) * 1 :=
      mul_le_mul_of_nonneg_left (by linarith) hq.le
    linarith
  have hcols_pos : 0 < columns.toNat := by omega
  have hrowsN_pos : 0 < (rowCount (wi : ℚ) (ni : ℚ) (ei : ℚ) (si : ℚ) columns).toNat := by
    rcases Nat.eq_zero_or_pos (rowCount (wi : ℚ) (ni : ℚ) (ei : ℚ) (si : ℚ) columns).toNat
      with h | h
    · rw [h] at hpid
      simp at hpid
    · exact h
  have hrows_pos : 0 < rowCount (wi : ℚ) (ni : ℚ) (ei : ℚ) (si : ℚ) columns := by omega
  have hdQ_pos : (0 : ℚ) < ((binWidth (wi : ℚ) (ei : ℚ) columns : ℤ) : ℚ) := by
    exact_mod_cast hd_pos
  have hu_nonneg :
      0 ≤ ((si : ℚ) - (ni : ℚ)) / ((binWidth (wi : ℚ) (ei : ℚ) columns : ℤ) : ℚ) := by
    by_contra hcon
    push_neg at hcon
    have hle : rowCount (wi : ℚ) (ni : ℚ) (ei : ℚ) (si : ℚ) columns ≤ 0 := by
      unfold rowCount
      rw [pyTrunc_eq_ceil _ (not_le.mpr hcon)]
      exact Int.ceil_le.mpr (by push_cast; exact hcon.le)
    omega
  have hrle : ((rowCount (wi : ℚ) (ni : ℚ) (ei : ℚ) (si : ℚ) columns : ℤ) : ℚ)
      ≤ ((si : ℚ) - (ni : ℚ)) / ((binWidth (wi : ℚ) (ei : ℚ) columns : ℤ) : ℚ) := by
    unfold rowCount
    exact pyTrunc_cast_le _ hu_nonneg
  have hdr : ((binWidth (wi : ℚ) (ei : ℚ) columns : ℤ) : ℚ)
      * ((rowCount (wi : ℚ) (ni : ℚ) (ei : ℚ) (si : ℚ) columns : ℤ) : ℚ)
      ≤ (si : ℚ) - (ni : ℚ) := by
    have h2 := (le_div_iff₀ hdQ_pos).mp hrle
    linarith
  have hcolnat : ((columns.toNat : ℕ) : ℚ) = ((columns : ℤ) : ℚ) := by
    exact_mod_cast Int.toNat_of_nonneg hc.le
  have hrownat : (((rowCount (wi : ℚ) (ni : ℚ) (ei : ℚ) (si : ℚ) columns).toNat : ℕ) : ℚ)
      = ((rowCount (wi : ℚ) (ni : ℚ) (ei : ℚ) (si : ℚ) columns : ℤ) : ℚ) := by
    exact_mod_cast Int.toNat_of_nonneg hrows_pos.le
  have hbox := mkPatch_in_box wi ni ei si (binWidth (wi : ℚ) (ei : ℚ) columns)
    (patchSize (wi : ℚ) (ei : ℚ) columns paddingRatio) columns.toNat
    ((rowCount (wi : ℚ) (ni : ℚ) (ei : ℚ) (si : ℚ) columns).toNat) cs pid
    hd_pos hsz_nonneg hsz_le hcols_pos hpid
    (by rw [hcolnat]; exact hdc)
    (by rw [hrownat]; exact hdr)
  exact ⟨hsz_le, hbox.1, hbox.2.1, hbox.2.2.1, hbox.2.2.2⟩

/-- Witness for C5: the first patch of a concrete 2x2 layout over the
integer box 0 0 100 100 is inside the box and no wider than the bin. -/
theorem C5_patches_in_box_witness :
    (⟨0, 50, 0, 0, "a"⟩ : SPatch).size ≤ binWidth ((0 : ℤ) : ℚ) ((100 : ℤ) : ℚ) 2 ∧
    (0 : ℤ) ≤ (⟨0, 50, 0, 0, "a"⟩ : SPatch).x ∧
    (0 : ℤ) ≤ (⟨0, 50, 0, 0, "a"⟩ : SPatch).y ∧
    (⟨0, 50, 0, 0, "a"⟩ : SPatch).x + (⟨0, 50, 0, 0, "a"⟩ : SPatch).size ≤ 100 ∧
    (⟨0, 50, 0, 0, "a"⟩ : SPatch).y + (⟨0, 50, 0, 0, "a"⟩ : SPatch).size ≤ 100 :=
  C5_patches_in_box 0 0 100 100 2 0 ["a"] (by decide) (by decide) (by norm_num) (by norm_num)
    ⟨0, 50, 0, 0, "a"⟩ (of_decide_eq_true (by with_unfolding_all rfl))

/-- Claim C7 (counterexample): with w = 0, e = 109, columns = 10 and
paddingRatio = 1/20 > 0, the bin width is 10.9, its truncation is
d = 10, and size = int(10.9 * 0.95) = 10 as well: the produced patches
have size = binWidth, not size < binWidth. -/
theorem C7_claim_counterexample :
    ((get_layout 0 0 109 10 10 (1/20) ["a"]).getD []).all
      (fun p => decide (p.size < binWidth 0 109 10)) = false := by
  with_unfolding_all rfl

/-- Claim C7 (amended): size < binWidth does hold whenever
paddingRatio > 0 and columns divides e - w exactly (e = w + m * columns
with the exact bin width m > 0); the counterexample shows it can fail
when (e - w) / columns has a fractional part. -/
theorem C7_size_lt_bin (w n s : ℚ) (m columns : ℤ) (paddingRatio : ℚ) (cs : List String)
    (hm : 0 < m) (hc : 0 < columns) (hpr : 0 < paddingRatio) :
    ∀ p ∈ (get_layout w n (w + (m : ℚ) * (columns : ℚ)) s columns paddingRatio cs).getD [],
      p.size < m := by
  intro p hp
  obtain ⟨hc2, hd0, pid, hpid, rfl⟩ := mem_get_layout _ _ _ _ _ _ _ _ hp
  have hcQ : (0 : ℚ) < (columns : ℚ) := by exact_mod_cast hc
  have hmQ : (0 : ℚ) < (m : ℚ) := by exact_mod_cast hm
  have hne : (columns : ℚ) ≠ 0 := hcQ.ne'
  have hqm : (w + (m : ℚ) * (columns : ℚ) - w) / (columns : ℚ) = (m : ℚ) := by
    field_simp
  show patchSize w (w + (m : ℚ) * (columns : ℚ)) columns paddingRatio < m
  unfold patchSize
  rw [hqm]
  by_cases hnn : 0 ≤ (m : ℚ) * (1 - paddingRatio)
  · rw [pyTrunc_eq_floor _ hnn]
    apply Int.floor_lt.mpr
    have hmp : 0 < (m : ℚ) * paddingRatio := mul_pos hmQ hpr
    have hring : (m : ℚ) * (1 - paddingRatio) = (m : ℚ) - (m : ℚ) * paddingRatio := by ring
    linarith
  · rw [pyTrunc_eq_ceil _ hnn]
    have hce : ⌈(m : ℚ) * (1 - paddingRatio)⌉ ≤ 0 :=
      Int.ceil_le.mpr (by push_cast; exact le_of_not_le hnn)
    linarith

/-- Witness for C7: with the exact bin width 10 (e = 0 + 10 * 2) and
paddingRatio = 1/2, the produced patch has size 5 < 10. -/
theorem C7_size_lt_bin_witness :
    (⟨0, 5, 2, 2, "a"⟩ : SPatch).size < 10 :=
  C7_size_lt_bin 0 0 10 10 2 (1/2) ["a"] (by decide) (by decide) (by norm_num)
    ⟨0, 5, 2, 2, "a"⟩ (of_decide_eq_true (by with_unfolding_all rfl))
